import Mathlib

/-!
Shallow embedding of the youlog logging backend (src/lib.rs) and proofs about
its filtering engine, environment-directive parser, builder operations and
dispatch logic.

Modelling conventions:

* Rust string slices are modelled by their character sequences (`Str := List Char`),
  the usual Lean modelling of Rust strings; concrete strings are written with Lean
  string literals through `String.data`.  Byte lengths (`str::len`) are modelled by
  `utf8Len`, the sum of the UTF-8 sizes of the characters.
* The `eprintln!` diagnostics of the source are threaded as an explicit `stderr`
  component of the engine state (the source writes them to the process stderr).
* The boxed callback functions of the Rust struct produce side effects; they are
  modelled as functions returning a list of events (`Record → List E`), and the
  callback table is kept in a separate structure `Callbacks` so that the filtering
  state `Youlog` has decidable equality.
* Definitions of the external `log` facade crate (severity ordering, level-token
  parsing, the process-wide logger cell) are not part of src/ and carry a
  `Modelled from the spec:` doc comment.
-/

namespace youlog

/-- Rust `&str` / `String`, modelled as the sequence of its characters. -/
abbrev Str := List Char

/-- Severity of an actual log record (`log::Level`; numeric values Error = 1 .. Trace = 5). -/
inductive Level where
  | Error
  | Warn
  | Info
  | Debug
  | Trace
deriving DecidableEq

/-- Severity ceiling used in configuration (`log::LevelFilter`; Off = 0 .. Trace = 5). -/
inductive LevelFilter where
  | Off
  | Error
  | Warn
  | Info
  | Debug
  | Trace
deriving DecidableEq

/-- Numeric encoding of `log::Level` (its `usize` representation). -/
def Level.toNat : Level → Nat
  | .Error => 1
  | .Warn => 2
  | .Info => 3
  | .Debug => 4
  | .Trace => 5

/-- Numeric encoding of `log::LevelFilter` (its `usize` representation). -/
def LevelFilter.toNat : LevelFilter → Nat
  | .Off => 0
  | .Error => 1
  | .Warn => 2
  | .Info => 3
  | .Debug => 4
  | .Trace => 5

/-- Modelled from the spec: the comparison `record_level <= ceiling` of the external
log facade (`PartialOrd<LevelFilter> for Level`, comparing the numeric encodings);
the spec orders severities from least to most severe Trace, Debug, Info, Warn, Error,
with `Off` below all record levels. -/
def levelLeFilter (l : Level) (f : LevelFilter) : Bool :=
  decide (l.toNat ≤ f.toNat)

/-- Modelled from the spec: parsing a severity-level token, performed by the external
log facade (`LevelFilter::from_str`): an ASCII-case-insensitive match against the
level names Off, Error, Warn, Info, Debug, Trace (spec glossary and section 4.2). -/
def parseLevelFilter (s : Str) : Option LevelFilter :=
  let u := s.map Char.toUpper
  if u = "OFF".data then some .Off
  else if u = "ERROR".data then some .Error
  else if u = "WARN".data then some .Warn
  else if u = "INFO".data then some .Info
  else if u = "DEBUG".data then some .Debug
  else if u = "TRACE".data then some .Trace
  else none

/-- `LevelFilter::max()` of the log facade: the most verbose ceiling, `Trace`. -/
def levelFilterMax : LevelFilter := .Trace

/-- A filter for a module (`struct Filter` in src/lib.rs): the module-name prefix and
the max logging level for the module. -/
structure Filter where
  name : Str
  level : LevelFilter
deriving DecidableEq

/-- The diagnostics the source emits with `eprintln!`, by payload. -/
inductive Diag where
  /-- warning: invalid logging spec `tok`, ignoring -/
  | invalidSpec (tok : Str)
  /-- warning: level filter for `name` already exists, ignoring -/
  | duplicateFilter (name : Str)
  /-- warning: setting a log fn for LevelFilter::Off does nothing -/
  | logFnOff
deriving DecidableEq

/-- The filtering state of `struct Youlog` (src/lib.rs): the global `max_level` and the
per-module `filters`, plus the `eprintln!` output threaded as `stderr`.  The callback
table of the Rust struct is modelled separately by `Callbacks`. -/
structure Youlog where
  max_level : LevelFilter
  filters : List Filter
  stderr : List Diag
deriving DecidableEq

/-- The configuration part of the engine state (max level and filter list),
without the diagnostic stream. -/
def Youlog.conf (yl : Youlog) : LevelFilter × List Filter :=
  (yl.max_level, yl.filters)

/-- `Youlog::new` (src/lib.rs line 109): global level `Trace`, no filters. -/
def Youlog.new : Youlog :=
  { max_level := .Trace, filters := [], stderr := [] }

/-- `Youlog::global_level` (src/lib.rs line 197): unconditional overwrite of `max_level`. -/
def Youlog.global_level (yl : Youlog) (lvl : LevelFilter) : Youlog :=
  { yl with max_level := lvl }

/-- `Youlog::level` (src/lib.rs line 204): register a per-module filter; a duplicate
module name is rejected with a diagnostic and leaves the state unchanged. -/
def Youlog.level (yl : Youlog) (name : Str) (lvl : LevelFilter) : Youlog :=
  if yl.filters.any (fun v => v.name == name) then
    { yl with stderr := yl.stderr ++ [.duplicateFilter name] }
  else
    { yl with filters := yl.filters ++ [{ name := name, level := lvl }] }

/-- The scan loop of `Youlog::enabled` (src/lib.rs lines 82-90): walk the given list,
skip filters whose name is not a textual prefix of the target, and return
`level <= filter.level` at the first match; `false` when the list is exhausted. -/
def enabledScan (target : Str) (lvl : Level) : List Filter → Bool
  | [] => false
  | f :: rest =>
    if f.name.isPrefixOf target then levelLeFilter lvl f.level
    else enabledScan target lvl rest

/-- `Youlog::enabled` (src/lib.rs line 81): scan the filter list in reverse order. -/
def Youlog.enabled (yl : Youlog) (target : Str) (lvl : Level) : Bool :=
  enabledScan target lvl yl.filters.reverse

/-- Rust `str::split(sep)` on a character sequence (worker with accumulator). -/
def splitOnCharAux (sep : Char) : List Char → List Char → List (List Char)
  | [], acc => [acc.reverse]
  | c :: cs, acc =>
    if c = sep then acc.reverse :: splitOnCharAux sep cs []
    else splitOnCharAux sep cs (c :: acc)

/-- Rust `str::split(sep)`: split at every occurrence of `sep`; the empty string
yields one empty piece, and separators at the ends yield empty pieces. -/
def splitOnChar (sep : Char) (cs : List Char) : List (List Char) :=
  splitOnCharAux sep cs []

/-- Rust `str::trim`: drop whitespace from both ends. -/
def trimChars (cs : List Char) : List Char :=
  ((cs.dropWhile Char.isWhitespace).reverse.dropWhile Char.isWhitespace).reverse

/-- The body of the directive loop of `Youlog::new_with_env` (src/lib.rs lines 145-174)
on one non-empty trimmed directive `s`: split on `=` and classify by shape; a bare
token that parses as a level sets the global level, a bare name or `name=` registers
a filter at the most verbose ceiling, `name=level` registers a filter when the level
token parses and is otherwise discarded with a warning, and any other shape is
discarded with a warning. -/
def directiveBody (yl : Youlog) (s : Str) : Youlog :=
  match splitOnChar '=' s with
  | [name] =>
    match parseLevelFilter name with
    | some lvl => yl.global_level lvl
    | none => yl.level name levelFilterMax
  | [name, p2] =>
    if trimChars p2 = [] then yl.level name levelFilterMax
    else
      match parseLevelFilter (trimChars p2) with
      | some lvl => yl.level name lvl
      | none => { yl with stderr := yl.stderr ++ [.invalidSpec (trimChars p2)] }
  | _ => { yl with stderr := yl.stderr ++ [.invalidSpec s] }

/-- One iteration of the directive loop of `Youlog::new_with_env` (src/lib.rs
lines 140-175): trim the directive, skip it when empty, otherwise process it. -/
def applyDirective (yl : Youlog) (d : Str) : Youlog :=
  if trimChars d = [] then yl else directiveBody yl (trimChars d)

/-- The whole directive loop: fold `applyDirective` over the directives in order. -/
def applyDirectives (ds : List Str) (yl : Youlog) : Youlog :=
  ds.foldl applyDirective yl

/-- The `Ok(v)` branch of `Youlog::new_with_env` (src/lib.rs lines 135-176), applied
to the value `v` of the environment variable: keep only the part before the first
`/`, split it on `,`, and run the directive loop starting from `Youlog::new`. -/
def Youlog.new_with_env_value (v : Str) : Youlog :=
  applyDirectives (splitOnChar ',' ((splitOnChar '/' v).headD [])) Youlog.new

/-- UTF-8 byte length of a character sequence (Rust `str::len`). -/
def utf8Len (s : Str) : Nat :=
  (s.map Char.utf8Size).sum

/-- Insertion step of the length sort used at finalization. -/
def insertByLen (f : Filter) : List Filter → List Filter
  | [] => [f]
  | g :: gs =>
    if utf8Len f.name ≤ utf8Len g.name then f :: g :: gs
    else g :: insertByLen f gs

/-- The filter sort of `Youlog::init` (src/lib.rs lines 185-190): sort by ascending
byte length of the filter name.  The source uses `sort_unstable_by` with the
comparator `a.name.len().cmp(&b.name.len())`; this realization is an insertion sort
by the same key, which agrees with the source wherever the source specifies its
behavior (the resulting order of equal-length names is unspecified in the source). -/
def sortFilters (fs : List Filter) : List Filter :=
  fs.foldr insertByLen []

/-- The filter normalization performed by `Youlog::init`: replace the filter list by
its length-sorted version. -/
def Youlog.finalizeFilters (yl : Youlog) : Youlog :=
  { yl with filters := sortFilters yl.filters }

/-- `log::SetLoggerError`: the error returned when a logger is already installed. -/
inductive SetLoggerError where
  | alreadyInit
deriving DecidableEq

/-- Modelled from the spec: the process-wide state of the external log facade
(`log::set_max_level` / `log::set_boxed_logger` are in the log crate, not in src/):
a one-shot cell holding the installed logger and the facade max-level hint. -/
structure LogFacade where
  installed : Option Youlog
  maxLevelHint : LevelFilter
deriving DecidableEq

/-- Modelled from the spec: `log::set_max_level`, an unconditional write of the
facade max-level hint. -/
def set_max_level (st : LogFacade) (lvl : LevelFilter) : LogFacade :=
  { st with maxLevelHint := lvl }

/-- Modelled from the spec: `log::set_boxed_logger`, a set-once install that fails
with a distinct error and leaves the cell unchanged when a logger is already
installed. -/
def set_boxed_logger (st : LogFacade) (yl : Youlog) :
    LogFacade × Except SetLoggerError Unit :=
  match st.installed with
  | some _ => (st, .error .alreadyInit)
  | none => ({ st with installed := some yl }, .ok ())

/-- `Youlog::init` (src/lib.rs line 184): sort the filters by ascending name length,
set the facade max-level hint to the engine's global level, then attempt to install
the engine as the process-wide logger. -/
def Youlog.init (yl : Youlog) (st : LogFacade) :
    LogFacade × Except SetLoggerError Unit :=
  let fin := yl.finalizeFilters
  set_boxed_logger (set_max_level st fin.max_level) fin

/-- A log record as consumed by the engine: target path and severity
(the message payload plays no role in the modelled logic). -/
structure Record where
  target : Str
  level : Level
deriving DecidableEq

/-- The callback table of `struct Youlog`: one slot per severity plus the raw slot.
Each callback is modelled as a function from the record to the list of events it
emits. -/
structure Callbacks (E : Type) where
  raw_fn : Record → List E
  info_fn : Record → List E
  warn_fn : Record → List E
  error_fn : Record → List E
  debug_fn : Record → List E
  trace_fn : Record → List E

/-- `Youlog::log` (src/lib.rs lines 93-102): invoke the raw callback, then the one
callback matching the record's level; the emitted events concatenate in that order. -/
def Callbacks.log {E : Type} (cb : Callbacks E) (r : Record) : List E :=
  cb.raw_fn r ++
    match r.level with
    | .Error => cb.error_fn r
    | .Warn => cb.warn_fn r
    | .Info => cb.info_fn r
    | .Debug => cb.debug_fn r
    | .Trace => cb.trace_fn r

/-- Names for the seven callback slots, used as observation events. -/
inductive Slot where
  | raw
  | error
  | warn
  | info
  | debug
  | trace
deriving DecidableEq

/-- The severity-specific slot matching a record level. -/
def slotOf : Level → Slot
  | .Error => .error
  | .Warn => .warn
  | .Info => .info
  | .Debug => .debug
  | .Trace => .trace

/-- An observing callback table: every slot emits exactly one event naming itself. -/
def taggedCallbacks : Callbacks Slot where
  raw_fn := fun _ => [.raw]
  info_fn := fun _ => [.info]
  warn_fn := fun _ => [.warn]
  error_fn := fun _ => [.error]
  debug_fn := fun _ => [.debug]
  trace_fn := fun _ => [.trace]

/-- The directive shapes the source discards with a warning (src/lib.rs lines
157-167): a `name=level` directive whose non-empty level token does not parse, or a
directive with more than one `=`. -/
def isMalformedDirective (s : Str) : Bool :=
  match splitOnChar '=' s with
  | [_] => false
  | [_, p2] => !(trimChars p2).isEmpty && (parseLevelFilter (trimChars p2)).isNone
  | [] => false
  | _ :: _ :: _ :: _ => true

lemma enabledScan_no_match (target : Str) (lvl : Level) (fs : List Filter)
    (h : ∀ f ∈ fs, f.name.isPrefixOf target = false) :
    enabledScan target lvl fs = false := by
  induction fs with
  | nil => rfl
  | cons f rest ih =>
    have hf := h f (List.mem_cons_self f rest)
    rw [enabledScan, hf]
    simp only [Bool.false_eq_true, if_false]
    exact ih fun g hg => h g (List.mem_cons_of_mem f hg)

lemma enabledScan_eq_find (target : Str) (lvl : Level) (fs : List Filter) :
    enabledScan target lvl fs =
      match fs.find? (fun f => f.name.isPrefixOf target) with
      | some f => levelLeFilter lvl f.level
      | none => false := by
  induction fs with
  | nil => rfl
  | cons f rest ih =>
    rw [enabledScan]
    cases hf : f.name.isPrefixOf target with
    | true => simp [List.find?_cons, hf]
    | false => simp [List.find?_cons, hf, ih]

/-- C10: whenever no registered filter's name is a textual prefix of the module path,
`enabled` returns `false`; in particular a freshly constructed engine (empty filter
list) reports every record disabled, whatever its global severity is. -/
theorem enabled_false_when_no_filter_matches :
    (∀ (yl : Youlog) (target : Str) (lvl : Level),
        (∀ f ∈ yl.filters, f.name.isPrefixOf target = false) →
        yl.enabled target lvl = false) ∧
    (∀ (target : Str) (lvl : Level), Youlog.new.enabled target lvl = false) := by
  constructor
  · intro yl target lvl h
    exact enabledScan_no_match target lvl yl.filters.reverse
      fun f hf => h f (List.mem_reverse.mp hf)
  · intro target lvl
    rfl

/-- C10 witness: an engine whose only filter has prefix `net` does not enable target
`other`, although its global severity is the most verbose one. -/
theorem enabled_false_when_no_filter_matches_witness :
    Youlog.enabled ⟨.Trace, [⟨"net".data, .Info⟩], []⟩ "other".data .Error = false :=
  enabled_false_when_no_filter_matches.1 ⟨.Trace, [⟨"net".data, .Info⟩], []⟩
    "other".data .Error (by decide)

/-- C1 counterexample: on the freshly constructed engine (no filters, global severity
`Trace`) the claim predicts `enabled = (severity less or equal global)`, i.e. `true`
for target `a` at `Info`, but the code returns `false`. -/
theorem enabled_no_match_not_global_cex :
    Youlog.new.enabled "a".data Level.Info = false ∧
    levelLeFilter Level.Info Youlog.new.max_level = true := by
  decide

/-- C1 amended: when no registered filter's name is a textual prefix of the module
path, `enabled` returns `false` and never consults the global severity; the global
severity still defaults to the most verbose level `Trace` on a freshly constructed
engine, so a logger with no filters reports no record enabled through `enabled`. -/
theorem enabled_no_match_false_default_trace :
    Youlog.new.max_level = LevelFilter.Trace ∧
    (∀ (target : Str) (lvl : Level), Youlog.new.enabled target lvl = false) ∧
    (∀ (yl : Youlog) (target : Str) (lvl : Level),
        (∀ f ∈ yl.filters, f.name.isPrefixOf target = false) →
        yl.enabled target lvl = false) := by
  refine ⟨rfl, fun target lvl => rfl, ?_⟩
  intro yl target lvl h
  exact enabledScan_no_match target lvl yl.filters.reverse
    fun f hf => h f (List.mem_reverse.mp hf)

/-- C1 amended witness: an engine with one filter `app` and global severity `Trace`
does not enable target `lib` at `Warn`. -/
theorem enabled_no_match_false_default_trace_witness :
    Youlog.enabled ⟨.Trace, [⟨"app".data, .Warn⟩], []⟩ "lib".data .Warn = false :=
  enabled_no_match_false_default_trace.2.2 ⟨.Trace, [⟨"app".data, .Warn⟩], []⟩
    "lib".data .Warn (by decide)

/-- C2: a filter matches exactly when its name is a plain textual prefix of the
target (`enabled` equals the ceiling comparison at the first match of the reverse
scan, and `false` when there is none), and concretely a filter with prefix `net`
at ceiling `Info` governs `net`, `net::http` and also `network`, enabling `Info`
records and rejecting the more verbose `Debug`. -/
theorem enabled_first_match_prefix_ceiling :
    (∀ (yl : Youlog) (target : Str) (lvl : Level),
        yl.enabled target lvl =
          match yl.filters.reverse.find? (fun f => f.name.isPrefixOf target) with
          | some f => levelLeFilter lvl f.level
          | none => false) ∧
    (Youlog.new.level "net".data .Info).enabled "net".data .Info = true ∧
    (Youlog.new.level "net".data .Info).enabled "net::http".data .Info = true ∧
    (Youlog.new.level "net".data .Info).enabled "network".data .Info = true ∧
    (Youlog.new.level "net".data .Info).enabled "met".data .Info = false ∧
    (Youlog.new.level "net".data .Info).enabled "net".data .Debug = false := by
  refine ⟨fun yl target lvl => enabledScan_eq_find target lvl yl.filters.reverse,
    ?_, ?_, ?_, ?_, ?_⟩ <;> decide

/-- C6: registering a filter for a module name that already has one leaves the filter
list and the global level completely unchanged (the first registration's ceiling
stays, the new severity is discarded) and only appends the duplicate diagnostic to
stderr. -/
theorem duplicate_level_noop (yl : Youlog) (name : Str) (lvl : LevelFilter)
    (h : ∃ f ∈ yl.filters, f.name = name) :
    (yl.level name lvl).filters = yl.filters ∧
    (yl.level name lvl).max_level = yl.max_level ∧
    (yl.level name lvl).stderr = yl.stderr ++ [.duplicateFilter name] := by
  obtain ⟨f, hmem, hname⟩ := h
  have ha : yl.filters.any (fun v => v.name == name) = true :=
    List.any_eq_true.mpr ⟨f, hmem, by simp [hname]⟩
  simp [Youlog.level, ha]

/-- C6 witness: registering `test` a second time at `Debug` keeps the filter list of
the first registration at `Info`, keeps the global level, and emits the duplicate
diagnostic. -/
theorem duplicate_level_noop_witness :
    ((Youlog.new.level "test".data .Info).level "test".data .Debug).filters =
      (Youlog.new.level "test".data .Info).filters ∧
    ((Youlog.new.level "test".data .Info).level "test".data .Debug).max_level =
      (Youlog.new.level "test".data .Info).max_level ∧
    ((Youlog.new.level "test".data .Info).level "test".data .Debug).stderr =
      (Youlog.new.level "test".data .Info).stderr ++ [.duplicateFilter "test".data] :=
  duplicate_level_noop (Youlog.new.level "test".data .Info) "test".data .Debug
    ⟨⟨"test".data, .Info⟩, by decide, rfl⟩

lemma two_filters_finalized (p1 p2 : Str) (l1 l2 : LevelFilter)
    (hne : p1 ≠ p2) (hlen : utf8Len p1 < utf8Len p2) :
    ((Youlog.new.level p1 l1).level p2 l2).finalizeFilters.filters =
      [⟨p1, l1⟩, ⟨p2, l2⟩] ∧
    ((Youlog.new.level p2 l2).level p1 l1).finalizeFilters.filters =
      [⟨p1, l1⟩, ⟨p2, l2⟩] := by
  have h12 : (p1 == p2) = false := beq_eq_false_iff_ne.mpr hne
  have h21 : (p2 == p1) = false := beq_eq_false_iff_ne.mpr (Ne.symm hne)
  have hle : utf8Len p1 ≤ utf8Len p2 := Nat.le_of_lt hlen
  have hnle : ¬ utf8Len p2 ≤ utf8Len p1 := Nat.not_le_of_lt hlen
  constructor
  · simp [Youlog.new, Youlog.level, Youlog.finalizeFilters, sortFilters, insertByLen,
      h12, hle]
  · simp [Youlog.new, Youlog.level, Youlog.finalizeFilters, sortFilters, insertByLen,
      h21, hnle]

/-- C3: for two filters where the second name strictly textually extends the first
(it has the first as prefix and is strictly longer in bytes), after the filter sort
of `init` the more specific filter decides `enabled` for every target it matches and
the less specific one decides for targets only it matches, in both registration
orders; concretely, with `test` at `Info` and `test::sub` at `Debug` registered in
either order, `enabled(test::sub, Debug)` is true while `enabled(test, Debug)` is
false. -/
theorem specific_filter_wins_after_finalize :
    (∀ (p1 p2 : Str) (l1 l2 : LevelFilter),
        p1.isPrefixOf p2 = true →
        utf8Len p1 < utf8Len p2 →
        (∀ (t : Str) (lvl : Level), p2.isPrefixOf t = true →
            ((Youlog.new.level p1 l1).level p2 l2).finalizeFilters.enabled t lvl
                = levelLeFilter lvl l2 ∧
            ((Youlog.new.level p2 l2).level p1 l1).finalizeFilters.enabled t lvl
                = levelLeFilter lvl l2) ∧
        (∀ (t : Str) (lvl : Level), p1.isPrefixOf t = true → p2.isPrefixOf t = false →
            ((Youlog.new.level p1 l1).level p2 l2).finalizeFilters.enabled t lvl
                = levelLeFilter lvl l1 ∧
            ((Youlog.new.level p2 l2).level p1 l1).finalizeFilters.enabled t lvl
                = levelLeFilter lvl l1)) ∧
    ((Youlog.new.level "test".data .Info).level "test::sub".data .Debug).finalizeFilters.enabled
        "test::sub".data Level.Debug = true ∧
    ((Youlog.new.level "test".data .Info).level "test::sub".data .Debug).finalizeFilters.enabled
        "test".data Level.Debug = false ∧
    ((Youlog.new.level "test::sub".data .Debug).level "test".data .Info).finalizeFilters.enabled
        "test::sub".data Level.Debug = true ∧
    ((Youlog.new.level "test::sub".data .Debug).level "test".data .Info).finalizeFilters.enabled
        "test".data Level.Debug = false := by
  refine ⟨?_, by decide, by decide, by decide, by decide⟩
  intro p1 p2 l1 l2 _hpre hlen
  have hne : p1 ≠ p2 := by
    intro he
    rw [he] at hlen
    exact Nat.lt_irrefl _ hlen
  obtain ⟨hA, hB⟩ := two_filters_finalized p1 p2 l1 l2 hne hlen
  constructor
  · intro t lvl h2
    constructor
    · rw [Youlog.enabled, hA]
      simp [enabledScan, h2]
    · rw [Youlog.enabled, hB]
      simp [enabledScan, h2]
  · intro t lvl h1 h2
    constructor
    · rw [Youlog.enabled, hA]
      simp [enabledScan, h1, h2]
    · rw [Youlog.enabled, hB]
      simp [enabledScan, h1, h2]

/-- C3 witness: instance of the general statement at prefixes `a` and `ab` with
ceilings `Info` and `Debug`, target `ab` at level `Debug`. -/
theorem specific_filter_wins_after_finalize_witness :
    ((Youlog.new.level "a".data .Info).level "ab".data .Debug).finalizeFilters.enabled
        "ab".data Level.Debug = levelLeFilter Level.Debug LevelFilter.Debug :=
  ((specific_filter_wins_after_finalize.1 "a".data "ab".data .Info .Debug
      (by decide) (by decide)).1 "ab".data Level.Debug (by decide)).1

lemma global_level_shift (m : LevelFilter) (fs : List Filter) (w : List Diag)
    (l : LevelFilter) :
    Youlog.global_level ⟨m, fs, w⟩ l =
      { Youlog.global_level ⟨m, fs, []⟩ l with
        stderr := w ++ (Youlog.global_level ⟨m, fs, []⟩ l).stderr } := by
  simp [Youlog.global_level]

lemma level_shift (m : LevelFilter) (fs : List Filter) (w : List Diag)
    (n : Str) (l : LevelFilter) :
    Youlog.level ⟨m, fs, w⟩ n l =
      { Youlog.level ⟨m, fs, []⟩ n l with
        stderr := w ++ (Youlog.level ⟨m, fs, []⟩ n l).stderr } := by
  by_cases ha : fs.any (fun v => v.name == n) = true
  · simp [Youlog.level, ha]
  · simp [Youlog.level, ha]

lemma directiveBody_shift (m : LevelFilter) (fs : List Filter) (w : List Diag)
    (s : Str) :
    directiveBody ⟨m, fs, w⟩ s =
      { directiveBody ⟨m, fs, []⟩ s with
        stderr := w ++ (directiveBody ⟨m, fs, []⟩ s).stderr } := by
  unfold directiveBody
  rcases hs : splitOnChar '=' s with _ | ⟨n, _ | ⟨p2, _ | ⟨q, rest⟩⟩⟩ <;>
    simp only [hs]
  · simp
  · rcases hp : parseLevelFilter n with _ | lvl <;> simp only [hp]
    · exact level_shift m fs w n levelFilterMax
    · exact global_level_shift m fs w lvl
  · by_cases he : trimChars p2 = []
    · simp only [he, if_pos rfl, if_true]
      exact level_shift m fs w n levelFilterMax
    · rw [if_neg he, if_neg he]
      rcases hp : parseLevelFilter (trimChars p2) with _ | lvl <;> simp only [hp]
      · simp
      · exact level_shift m fs w n lvl
  · simp

lemma applyDirective_shift (m : LevelFilter) (fs : List Filter) (w : List Diag)
    (d : Str) :
    applyDirective ⟨m, fs, w⟩ d =
      { applyDirective ⟨m, fs, []⟩ d with
        stderr := w ++ (applyDirective ⟨m, fs, []⟩ d).stderr } := by
  unfold applyDirective
  by_cases h0 : trimChars d = []
  · simp [h0]
  · rw [if_neg h0, if_neg h0]
    exact directiveBody_shift m fs w (trimChars d)

lemma applyDirective_conf_congr {yl yl' : Youlog} (d : Str) (h : yl.conf = yl'.conf) :
    (applyDirective yl d).conf = (applyDirective yl' d).conf := by
  obtain ⟨m, fs, w⟩ := yl
  obtain ⟨m', fs', w'⟩ := yl'
  simp only [Youlog.conf, Prod.mk.injEq] at h
  obtain ⟨hm, hf⟩ := h
  subst hm hf
  rw [applyDirective_shift m fs w d, applyDirective_shift m fs w' d]
  rfl

lemma applyDirectives_conf_congr {yl yl' : Youlog} (ds : List Str)
    (h : yl.conf = yl'.conf) :
    (applyDirectives ds yl).conf = (applyDirectives ds yl').conf := by
  induction ds generalizing yl yl' with
  | nil => exact h
  | cons d rest ih =>
    exact ih (applyDirective_conf_congr d h)

lemma applyDirectives_skip_empty (ds1 ds2 : List Str) (d : Str) (yl : Youlog)
    (h : trimChars d = []) :
    applyDirectives (ds1 ++ d :: ds2) yl = applyDirectives (ds1 ++ ds2) yl := by
  have hid : ∀ X : Youlog, applyDirective X d = X := by
    intro X
    simp [applyDirective, h]
  unfold applyDirectives
  rw [List.foldl_append, List.foldl_append, List.foldl_cons, hid]

lemma applyDirective_malformed {d : Str}
    (h : isMalformedDirective (trimChars d) = true) (yl : Youlog) :
    ∃ w : Diag, applyDirective yl d = { yl with stderr := yl.stderr ++ [w] } := by
  have h0 : ¬ trimChars d = [] := by
    intro he
    rw [he] at h
    simp [isMalformedDirective, splitOnChar, splitOnCharAux] at h
  rw [applyDirective, if_neg h0]
  rw [isMalformedDirective] at h
  rw [directiveBody]
  rcases hs : splitOnChar '=' (trimChars d) with _ | ⟨n, _ | ⟨p2, _ | ⟨q, rest⟩⟩⟩ <;>
    rw [hs] at h <;> simp only [hs]
  · simp at h
  · simp at h
  · rw [Bool.and_eq_true] at h
    obtain ⟨hne, hnone⟩ := h
    have hne' : ¬ trimChars p2 = [] := by
      intro he
      rw [he] at hne
      simp at hne
    have hnone' : parseLevelFilter (trimChars p2) = none := by
      cases hq : parseLevelFilter (trimChars p2) with
      | none => rfl
      | some l => rw [hq] at hnone; simp [Option.isNone] at hnone
    rw [if_neg hne', hnone']
    exact ⟨.invalidSpec (trimChars p2), rfl⟩
  · exact ⟨.invalidSpec (trimChars d), rfl⟩

/-- C4: parsing the directive string `debug,test=info,other=debug,bleh=error` yields
global severity `Debug` and filters `test` at `Info`, `other` at `Debug`, `bleh` at
`Error`; the parser processes exactly the part of the string before the first `/`
split on `,` (stated definitionally and witnessed by a slash-suffixed variant),
skips directives that trim to empty, and trims each directive. -/
theorem env_directive_parse :
    Youlog.new_with_env_value "debug,test=info,other=debug,bleh=error".data =
      { max_level := .Debug,
        filters := [⟨"test".data, .Info⟩, ⟨"other".data, .Debug⟩, ⟨"bleh".data, .Error⟩],
        stderr := [] } ∧
    (∀ v : Str, Youlog.new_with_env_value v =
        applyDirectives (splitOnChar ',' ((splitOnChar '/' v).headD [])) Youlog.new) ∧
    Youlog.new_with_env_value
        "debug,test=info,other=debug,bleh=error/ignored,x=y".data =
      Youlog.new_with_env_value "debug,test=info,other=debug,bleh=error".data ∧
    (∀ (ds1 ds2 : List Str) (d : Str) (yl : Youlog), trimChars d = [] →
        applyDirectives (ds1 ++ d :: ds2) yl = applyDirectives (ds1 ++ ds2) yl) ∧
    Youlog.new_with_env_value "  debug  ,  test=info  ".data =
      Youlog.new_with_env_value "debug,test=info".data := by
  exact ⟨by decide, fun v => rfl, by decide,
    fun ds1 ds2 d yl h => applyDirectives_skip_empty ds1 ds2 d yl h, by decide⟩

/-- C4 witness: a directive that trims to empty is skipped by the directive loop. -/
theorem env_directive_parse_witness :
    applyDirectives (["debug".data] ++ "  ".data :: []) Youlog.new =
      applyDirectives (["debug".data] ++ []) Youlog.new :=
  env_directive_parse.2.2.2.1 ["debug".data] [] "  ".data Youlog.new (by decide)

/-- C5: a directive whose trimmed form is malformed (a `name=level` whose non-empty
level token does not parse, or more than one `=`) only appends a warning to stderr,
and the configuration produced from any directive list containing it equals the
configuration produced with that one directive removed: every other directive still
takes effect. -/
theorem malformed_directive_skipped (d : Str) (ds1 ds2 : List Str) (yl : Youlog)
    (h : isMalformedDirective (trimChars d) = true) :
    (∃ w : Diag, applyDirective yl d = { yl with stderr := yl.stderr ++ [w] }) ∧
    (applyDirectives (ds1 ++ d :: ds2) yl).conf =
      (applyDirectives (ds1 ++ ds2) yl).conf := by
  refine ⟨applyDirective_malformed h yl, ?_⟩
  unfold applyDirectives
  rw [List.foldl_append, List.foldl_append, List.foldl_cons]
  have hc : (applyDirective (List.foldl applyDirective yl ds1) d).conf =
      (List.foldl applyDirective yl ds1).conf := by
    obtain ⟨w, hw⟩ := applyDirective_malformed h (List.foldl applyDirective yl ds1)
    rw [hw]
    rfl
  exact applyDirectives_conf_congr ds2 hc

/-- C5 witness: dropping the malformed `test=notalevel` from
`debug,test=notalevel,other=warn` leaves the resulting configuration unchanged,
and the malformed directive itself only emits a warning. -/
theorem malformed_directive_skipped_witness :
    (∃ w : Diag, applyDirective Youlog.new "test=notalevel".data =
      { Youlog.new with stderr := Youlog.new.stderr ++ [w] }) ∧
    (applyDirectives (["debug".data] ++ "test=notalevel".data :: ["other=warn".data])
        Youlog.new).conf =
      (applyDirectives (["debug".data] ++ ["other=warn".data]) Youlog.new).conf :=
  malformed_directive_skipped "test=notalevel".data ["debug".data] ["other=warn".data]
    Youlog.new (by decide)

/-- C7: dispatching any record through the observing callback table emits the raw
event first and then exactly the event of the severity slot matching the record's
level: the trace is raw followed by that slot, raw occurs exactly once, the matching
slot exactly once, and every other severity slot zero times; the statement holds for
every record unconditionally, so no level re-check gates the dispatch. -/
theorem log_dispatch_raw_then_exact_level :
    ∀ r : Record,
      taggedCallbacks.log r = [Slot.raw, slotOf r.level] ∧
      (taggedCallbacks.log r).count Slot.raw = 1 ∧
      (taggedCallbacks.log r).count (slotOf r.level) = 1 ∧
      (∀ s : Slot, s ≠ Slot.raw → s ≠ slotOf r.level →
          (taggedCallbacks.log r).count s = 0) := by
  intro r
  obtain ⟨t, l⟩ := r
  cases l <;>
    refine ⟨rfl, rfl, rfl, ?_⟩ <;>
    · intro s h1 h2
      cases s <;> first
        | exact absurd rfl h1
        | exact absurd rfl h2
        | rfl

/-- C7 witness: dispatching an `Info` record does not invoke the `Debug` callback. -/
theorem log_dispatch_raw_then_exact_level_witness :
    (taggedCallbacks.log ⟨"m".data, Level.Info⟩).count Slot.debug = 0 :=
  (log_dispatch_raw_then_exact_level ⟨"m".data, Level.Info⟩).2.2.2 Slot.debug
    (by decide) (by decide)

/-- C9: when a logger is already installed, `init` returns the distinct
already-installed error and the facade still holds the first instance, unchanged by
the failed second installation. -/
theorem second_init_fails_keeps_first (st : LogFacade) (yl0 yl : Youlog)
    (h : st.installed = some yl0) :
    (yl.init st).2 = Except.error SetLoggerError.alreadyInit ∧
    (yl.init st).1.installed = some yl0 := by
  unfold Youlog.init set_boxed_logger set_max_level
  simp [h]

/-- C9 witness: with a fresh engine already installed, a second engine's `init`
fails with the already-installed error and the first engine stays installed. -/
theorem second_init_fails_keeps_first_witness :
    ((Youlog.new.global_level .Error).init ⟨some Youlog.new, .Trace⟩).2 =
      Except.error SetLoggerError.alreadyInit ∧
    ((Youlog.new.global_level .Error).init ⟨some Youlog.new, .Trace⟩).1.installed =
      some Youlog.new :=
  second_init_fails_keeps_first ⟨some Youlog.new, .Trace⟩ Youlog.new
    (Youlog.new.global_level .Error) rfl

-- The assertions of the source's own test modules (tests filter_enabled and env in
-- src/lib.rs), checked against the embedding.
example :
    Youlog.new_with_env_value "debug,test=info,other=debug,bleh=error".data =
      { max_level := .Debug,
        filters := [⟨"test".data, .Info⟩, ⟨"other".data, .Debug⟩, ⟨"bleh".data, .Error⟩],
        stderr := [] } := by decide

example :
    (Youlog.new.level "test".data .Info).enabled "test::blah".data .Info = true := by decide

example :
    (Youlog.new.level "test".data .Info).enabled "other".data .Info = false := by decide

example :
    (Youlog.new.level "test".data .Info).enabled "test".data .Trace = false := by decide

example : Youlog.new.enabled "test".data .Info = false := by decide

example : isMalformedDirective "test=notalevel".data = true := by decide

example : isMalformedDirective "a=b=c".data = true := by decide

example : isMalformedDirective "test=info".data = false := by decide

example :
    Youlog.new_with_env_value " debug , test=info ,, /ignored=junk".data =
      { max_level := .Debug, filters := [⟨"test".data, .Info⟩], stderr := [] } := by decide

example :
    (Youlog.new.level "test".data .Info).enabled "test::blah::eh".data .Info = true := by
  decide

example :
    (Youlog.new.level "test".data .Info).enabled "test::blah".data .Debug = false := by
  decide

example :
    ((Youlog.new.level "test".data .Info).level "test::blah".data .Debug).enabled
      "test::blah".data .Debug = true := by
  decide

example :
    (Youlog.new_with_env_value "debug,test=info,other=debug,bleh=error".data).enabled
      "test".data .Info = true := by
  decide

example :
    (Youlog.new_with_env_value "debug,test=info,other=debug,bleh=error".data).enabled
      "other".data .Debug = true := by
  decide

example :
    (Youlog.new_with_env_value "error,test=error".data).max_level = .Error ∧
    (Youlog.new_with_env_value "error,test=error".data).enabled "test".data .Error =
      true := by
  decide

end youlog
